import Mathlib

/-!
Verification of the geo-proximity event recommendation and pagination logic of
the `cyo_api` backend (`app/utils/distance.py` and the `/events/recommended_events`
endpoint of `app/routers/events.py`), as a shallow embedding in Lean.

Machine floats are modelled by real numbers, SQL tables by lists kept in their
stored order, and the pandas data-frame pipeline by the corresponding list
transformations.
-/

namespace Cyo

open Real List

/-- `np.radians`: converts decimal degrees to radians. -/
noncomputable def radians (x : ℝ) : ℝ := x * (Real.pi / 180)

/-- Shallow embedding of `haversine_distance(lat1, lon1, lat2, lon2)` from
`app/utils/distance.py`: with `R = 6371`, `dlat`/`dlon` the coordinate
differences in radians, it returns `R * c` where
`a = sin(dlat/2)**2 + cos(lat1)*cos(lat2)*sin(dlon/2)**2` and
`c = 2*arcsin(sqrt(a))`. -/
noncomputable def haversine_distance (lat1 lon1 lat2 lon2 : ℝ) : ℝ :=
  6371 *
    (2 * Real.arcsin (Real.sqrt
      (Real.sin ((radians lat2 - radians lat1) / 2) ^ 2 +
        Real.cos (radians lat1) * Real.cos (radians lat2) *
          Real.sin ((radians lon2 - radians lon1) / 2) ^ 2)))

/-- `lat_delta` of the bounding-box prefilter in `get_recommended_events`:
`max_distance_km / 111.0`. -/
noncomputable def lat_delta (radiusKm : ℝ) : ℝ := radiusKm / 111.0

/-- `lon_delta` of the bounding-box prefilter in `get_recommended_events`:
`max_distance_km / (111.320 * max(0.000001, cos(radians(user_lat))))`. -/
noncomputable def lon_delta (radiusKm centerLat : ℝ) : ℝ :=
  radiusKm / (111.320 * max 0.000001 (Real.cos (radians centerLat)))

/-- The rectangular window tested by the two `between` filters of the
nearby-pincode query in `get_recommended_events`. -/
noncomputable def in_bounding_box (centerLat centerLon radiusKm plat plon : ℝ) : Prop :=
  (centerLat - lat_delta radiusKm ≤ plat ∧ plat ≤ centerLat + lat_delta radiusKm) ∧
  (centerLon - lon_delta radiusKm centerLat ≤ plon ∧
    plon ≤ centerLon + lon_delta radiusKm centerLat)

lemma radians_zero : radians 0 = 0 := by simp [radians]

lemma haversine_self (lat lon : ℝ) : haversine_distance lat lon lat lon = 0 := by
  simp [haversine_distance]

lemma haversine_comm (lat1 lon1 lat2 lon2 : ℝ) :
    haversine_distance lat1 lon1 lat2 lon2 = haversine_distance lat2 lon2 lat1 lon1 := by
  unfold haversine_distance
  have e : ∀ x y : ℝ, Real.sin ((x - y) / 2) ^ 2 = Real.sin ((y - x) / 2) ^ 2 := by
    intro x y
    rw [show (x - y) / 2 = -((y - x) / 2) by ring, Real.sin_neg, neg_sq]
  rw [e (radians lat2) (radians lat1), e (radians lon2) (radians lon1),
    mul_comm (Real.cos (radians lat1))]

/-- On the ball with both points on a common meridian or with both on the
equator, the haversine formula collapses to arc length: if the only nonzero
coordinate difference is `d` degrees with `0 ≤ d ≤ 180`, the distance is
`6371 * radians d`.  Stated via the common core. -/
lemma arcsin_sqrt_sin_sq (d : ℝ) (h0 : 0 ≤ d) (h1 : d ≤ Real.pi) :
    2 * Real.arcsin (Real.sqrt (Real.sin (d / 2) ^ 2)) = d := by
  have hs : (0 : ℝ) ≤ Real.sin (d / 2) :=
    Real.sin_nonneg_of_nonneg_of_le_pi (by linarith) (by linarith [Real.pi_pos])
  rw [Real.sqrt_sq_eq_abs, abs_of_nonneg hs,
    Real.arcsin_sin (by linarith [Real.pi_pos]) (by linarith)]
  ring

lemma haversine_meridian (x : ℝ) (h0 : 0 ≤ x) (h1 : x ≤ 180) :
    haversine_distance 0 0 x 0 = 6371 * radians x := by
  have hx0 : 0 ≤ radians x := by
    unfold radians; positivity
  have hx1 : radians x ≤ Real.pi := by
    unfold radians
    nlinarith [Real.pi_pos]
  unfold haversine_distance
  rw [radians_zero]
  rw [show radians x - 0 = radians x by ring, show (0 : ℝ) - 0 = 0 by ring]
  rw [show Real.sin (0 / 2) = 0 by simp]
  rw [show (0:ℝ) ^ 2 = 0 by ring, mul_zero, add_zero]
  rw [arcsin_sqrt_sin_sq (radians x) hx0 hx1]

lemma haversine_equator (y : ℝ) (h0 : 0 ≤ y) (h1 : y ≤ 180) :
    haversine_distance 0 0 0 y = 6371 * radians y := by
  have hy0 : 0 ≤ radians y := by
    unfold radians; positivity
  have hy1 : radians y ≤ Real.pi := by
    unfold radians
    nlinarith [Real.pi_pos]
  unfold haversine_distance
  rw [radians_zero]
  rw [show radians y - 0 = radians y by ring, show (0 : ℝ) - 0 = 0 by ring]
  simp only [Real.cos_zero, one_mul, zero_div, Real.sin_zero]
  rw [show (0:ℝ) ^ 2 = 0 by ring, zero_add]
  rw [arcsin_sqrt_sin_sq (radians y) hy0 hy1]

lemma cos_radians_nonneg (lat : ℝ) (h1 : -90 ≤ lat) (h2 : lat ≤ 90) :
    0 ≤ Real.cos (radians lat) := by
  apply Real.cos_nonneg_of_mem_Icc
  constructor
  · unfold radians
    nlinarith [Real.pi_pos]
  · unfold radians
    nlinarith [Real.pi_pos]

/-- The haversine distance dominates `R` times the absolute latitude difference
in radians (for latitudes in range, so that the cosine factors are
nonnegative). -/
lemma haversine_ge_lat (lat1 lon1 lat2 lon2 : ℝ)
    (h1 : -90 ≤ lat1) (h2 : lat1 ≤ 90) (h3 : -90 ≤ lat2) (h4 : lat2 ≤ 90) :
    6371 * |radians lat2 - radians lat1| ≤ haversine_distance lat1 lon1 lat2 lon2 := by
  have hπ : (0 : ℝ) < Real.pi := Real.pi_pos
  set d : ℝ := radians lat2 - radians lat1 with hd
  have hdpi : |d| ≤ Real.pi := by
    have : d = (lat2 - lat1) * (Real.pi / 180) := by
      rw [hd]; unfold radians; ring
    rw [this, abs_mul, abs_of_nonneg (by positivity : (0:ℝ) ≤ Real.pi / 180)]
    have : |lat2 - lat1| ≤ 180 := by
      rw [abs_le]; constructor <;> linarith
    nlinarith [abs_nonneg (lat2 - lat1)]
  have habs : |Real.sin (d / 2)| = Real.sin (|d| / 2) := by
    rcases le_or_lt 0 d with hpos | hneg
    · have hdle : d ≤ Real.pi := by rwa [abs_of_nonneg hpos] at hdpi
      rw [abs_of_nonneg hpos,
        abs_of_nonneg (Real.sin_nonneg_of_nonneg_of_le_pi (by linarith) (by linarith))]
    · have hdge : -Real.pi ≤ d := by
        rw [abs_of_neg hneg] at hdpi; linarith
      have hs : Real.sin (d / 2) ≤ 0 := by
        have h0 : (0:ℝ) ≤ Real.sin (-(d / 2)) :=
          Real.sin_nonneg_of_nonneg_of_le_pi (by linarith) (by linarith)
        rw [Real.sin_neg] at h0; linarith
      rw [abs_of_neg hneg, abs_of_nonpos hs, show -d / 2 = -(d/2) by ring, Real.sin_neg]
  have hkey : |d| / 2 ≤ Real.arcsin (Real.sqrt
      (Real.sin (d / 2) ^ 2 +
        Real.cos (radians lat1) * Real.cos (radians lat2) *
          Real.sin ((radians lon2 - radians lon1) / 2) ^ 2)) := by
    have hsq : Real.sin (d / 2) ^ 2 ≤
        Real.sin (d / 2) ^ 2 +
          Real.cos (radians lat1) * Real.cos (radians lat2) *
            Real.sin ((radians lon2 - radians lon1) / 2) ^ 2 := by
      have := mul_nonneg
        (mul_nonneg (cos_radians_nonneg lat1 h1 h2) (cos_radians_nonneg lat2 h3 h4))
        (sq_nonneg (Real.sin ((radians lon2 - radians lon1) / 2)))
      linarith
    have hsqrt : Real.sin (|d| / 2) ≤ Real.sqrt
        (Real.sin (d / 2) ^ 2 +
          Real.cos (radians lat1) * Real.cos (radians lat2) *
            Real.sin ((radians lon2 - radians lon1) / 2) ^ 2) := by
      rw [← habs, ← Real.sqrt_sq_eq_abs]
      exact Real.sqrt_le_sqrt hsq
    calc |d| / 2 = Real.arcsin (Real.sin (|d| / 2)) :=
          (Real.arcsin_sin (by linarith [abs_nonneg d]) (by linarith)).symm
      _ ≤ _ := Real.monotone_arcsin hsqrt
  unfold haversine_distance
  rw [← hd]
  linarith [hkey]

/-! ### Data model

Rows of the `pincodes` and `events` tables (`app/models/pincode.py`,
`app/models/event.py`), the fields of the current user that
`get_recommended_events` reads, and the response schema.  Tables are lists in
their stored order; `participants` is the list of participant user ids. -/

structure PincodeRow where
  pincode : String
  district : String
  state_name : String
  latitude : ℝ
  longitude : ℝ

structure EventRow where
  id : ℕ
  pincode : String
  category : String
  host_id : ℕ
  date : ℕ
  is_active : Bool
  participants : List ℕ
deriving DecidableEq

structure UserRow where
  id : ℕ
  interests : List String
  pincode : String

structure DB where
  events : List EventRow
  pincodes : List PincodeRow

structure PaginatedEventResponse where
  events : List EventRow
  total_pages : ℕ

/-- An event row together with its computed `Distance_km` column. -/
structure RankedEvent where
  event : EventRow
  distance_km : ℝ

/-- The ordering used by `sort_values('Distance_km')`: ascending by the
computed distance. -/
def dist_le (a b : RankedEvent) : Prop := a.distance_km ≤ b.distance_km

noncomputable instance : DecidableRel dist_le := fun a b =>
  inferInstanceAs (Decidable (a.distance_km ≤ b.distance_km))

instance : IsTotal RankedEvent dist_le := ⟨fun a b => le_total a.distance_km b.distance_km⟩

instance : IsTrans RankedEvent dist_le := ⟨fun _ _ _ h1 h2 => le_trans h1 h2⟩

/-! ### `sort_events_by_distance` (`app/utils/distance.py`) -/

/-- The `events_df.merge(pincodes_df[...], on='pincode', how='left')` step
followed by `dropna(subset=['latitude','longitude'])`: each event row is paired
with every pincode row carrying its pincode (in pincode-table order), and
events without location data are dropped (a left-merge row with no match holds
`NaN` coordinates and is removed by the `dropna`). -/
def events_with_location (events : List EventRow) (pincodes : List PincodeRow) :
    List (EventRow × ℝ × ℝ) :=
  events.flatMap fun e =>
    (pincodes.filter fun p => p.pincode == e.pincode).map fun p =>
      (e, p.latitude, p.longitude)

/-- Shallow embedding of `sort_events_by_distance(events_df, pincodes_df,
user_lat, user_lon, max_distance_km)`: merge locations, drop unlocated events,
compute `Distance_km` via the haversine formula, keep rows with
`Distance_km <= max_distance_km`, and sort ascending by `Distance_km`.

The final `sort_values('Distance_km')` is modelled as a stable ascending sort
(`List.insertionSort`): it produces an ascending permutation of the filtered
rows, like the library sort.  pandas' default `kind='quicksort'` leaves the
relative order of equal keys unspecified; the exact tie behaviour of the
underlying numpy introsort is modelled separately by `np_argsort_quicksort`
below, where the spec's stability requirement is examined. -/
noncomputable def sort_events_by_distance (events : List EventRow)
    (pincodes : List PincodeRow) (user_lat user_lon : ℝ)
    (max_distance_km : ℝ) : List RankedEvent :=
  let with_distance : List RankedEvent :=
    (events_with_location events pincodes).map fun x =>
      ⟨x.1, haversine_distance user_lat user_lon x.2.1 x.2.2⟩
  let filtered := with_distance.filter fun r => decide (r.distance_km ≤ max_distance_km)
  List.insertionSort dist_le filtered

/-! ### Pagination arithmetic and the endpoint (`app/routers/events.py`) -/

/-- `math.ceil(n / m)` for natural `n` and positive `m`. -/
def ceil_div (n m : ℕ) : ℕ := (n + m - 1) / m

/-- `page = max(1, page)` (line 166 of `app/routers/events.py`). -/
def normalize_page (page : ℤ) : ℤ := max 1 page

/-- `size = max(1, min(200, size))` (line 167 of `app/routers/events.py`). -/
def normalize_size (size : ℤ) : ℤ := max 1 (min 200 size)

/-- The page window `seq[(page-1)*size : (page-1)*size + size]`, applied by
`iloc[start_idx:end_idx]` on the sorted frame and by `offset/limit` in the
fallback paths. -/
def page_slice {α : Type*} (seq : List α) (page size : ℤ) : List α :=
  (seq.drop ((page - 1) * size).toNat).take size.toNat

/-- Python's `str.lower()`, modelled at the ASCII level on the character
list. -/
def py_lower (s : String) : String := ⟨s.data.map Char.toLower⟩

/-- Python's `str.strip()`: drop leading and trailing whitespace. -/
def py_strip (s : String) : String :=
  ⟨((s.data.dropWhile Char.isWhitespace).reverse.dropWhile Char.isWhitespace).reverse⟩

/-- `[i.strip().lower() for i in current_user.interests]`. -/
def lowered_interests (u : UserRow) : List String :=
  u.interests.map fun i => py_lower (py_strip i)

/-- The candidate query: events whose lowercased category is among the user's
lowered interests, not hosted by the user, strictly in the future, active, and
not already joined by the user. -/
def events_query (db : DB) (u : UserRow) (today : ℕ) : List EventRow :=
  db.events.filter fun e =>
    (lowered_interests u).contains (py_lower e.category) &&
    decide (e.host_id ≠ u.id) &&
    decide (today < e.date) &&
    e.is_active &&
    !(e.participants.contains u.id)

/-- `db.query(Pincode).filter(Pincode.pincode == current_user.pincode).first()`. -/
def user_pincode_row (db : DB) (u : UserRow) : Option PincodeRow :=
  db.pincodes.find? fun p => p.pincode == u.pincode

noncomputable instance (clat clon r plat plon : ℝ) :
    Decidable (in_bounding_box clat clon r plat plon) := by
  unfold in_bounding_box
  infer_instance

/-- The pincodes returned by the bounding-box `between` query, in table
order. -/
noncomputable def nearby_pincodes (db : DB) (user_lat user_lon : ℝ) : List String :=
  (db.pincodes.filter fun p =>
    decide (in_bounding_box user_lat user_lon 70 p.latitude p.longitude)).map
    (·.pincode)

/-- Candidate events: the interest query restricted to nearby pincodes, capped
at `CANDIDATE_LIMIT = 5000`. -/
noncomputable def candidate_events (db : DB) (u : UserRow) (today : ℕ)
    (user_lat user_lon : ℝ) : List EventRow :=
  (((events_query db u today).filter fun e =>
    (nearby_pincodes db user_lat user_lon).contains e.pincode).take 5000)

/-- `unique()` on the candidates' `pincode` column: first occurrences, in
order. -/
def unique_strings : List String → List String :=
  go []
where
  go (seen : List String) : List String → List String
    | [] => []
    | a :: l => if seen.contains a then go seen l else a :: go (a :: seen) l

/-- `db.query(Pincode).filter(Pincode.pincode.in_(unique_pincodes)).all()`. -/
def pincodes_for (db : DB) (codes : List String) : List PincodeRow :=
  db.pincodes.filter fun p => codes.contains p.pincode

/-- The ordered, distance-filtered sequence (`sorted_events_df`) that the
endpoint paginates. -/
noncomputable def ranked_sequence (db : DB) (u : UserRow) (today : ℕ)
    (user_lat user_lon : ℝ) : List RankedEvent :=
  sort_events_by_distance (candidate_events db u today user_lat user_lon)
    (pincodes_for db
      (unique_strings ((candidate_events db u today user_lat user_lon).map (·.pincode))))
    user_lat user_lon 70

/-- The fallback response used when no reference coordinate is available:
DB-level `offset/limit` pagination over the unfiltered interest query. -/
def fallback_response (db : DB) (u : UserRow) (today : ℕ) (page size : ℤ) :
    PaginatedEventResponse :=
  let fallback_events := page_slice (events_query db u today) page size
  let total := (events_query db u today).length
  ⟨fallback_events, if 0 < total then ceil_div total size.toNat else 0⟩

/-- Shallow embedding of the `GET /events/recommended_events` handler
(`get_recommended_events`, `app/routers/events.py`), for a fixed current day
`today`.  `db.query(Event).filter(Event.id.in_(ids))` on the paginated ids
followed by the id-to-object reordering is modelled by `filter` plus
`find?`-lookups in slice order. -/
noncomputable def get_recommended_events (db : DB) (u : UserRow) (today : ℕ)
    (page0 size0 : ℤ) : PaginatedEventResponse :=
  let page := normalize_page page0
  let size := normalize_size size0
  if u.interests = [] then ⟨[], 0⟩
  else
    match user_pincode_row db u with
    | none => fallback_response db u today page size
    | some up =>
      let user_lat := up.latitude
      let user_lon := up.longitude
      if nearby_pincodes db user_lat user_lon = [] then
        fallback_response db u today page size
      else
        let cands := candidate_events db u today user_lat user_lon
        if cands = [] then ⟨[], 0⟩
        else
          let total_pages := ceil_div cands.length size.toNat
          let sorted_events := ranked_sequence db u today user_lat user_lon
          let paginated := page_slice sorted_events page size
          let ids := paginated.map fun r => r.event.id
          if ids = [] then ⟨[], 0⟩
          else
            let fetched := db.events.filter fun e => ids.contains e.id
            ⟨ids.filterMap fun eid => fetched.find? fun e => e.id == eid, total_pages⟩

/-! ### numpy's `argsort(kind='quicksort')`

`sort_values('Distance_km')` uses pandas' default `kind='quicksort'`, which
pandas documents as *not* stable ("'mergesort' and 'stable' are the only
stable algorithms").  The functions below model the indirect introsort that
numpy runs for that kind (`npysort` `aquicksort_`): median-of-3 pivoting and
Hoare-style partition swaps on the index array while the segment span exceeds
`SMALL_QUICKSORT = 15`, then insertion sort on the small segments.  The
depth-limit heapsort fallback of the introsort is not modelled; it is
unreachable for the inputs considered here (a single partition pass followed
by insertion sorts). -/

/-- The key of the index stored at position `i` of the index array. -/
def np_key {α : Type*} [Inhabited α] (v : Array α) (t : Array ℕ) (i : ℕ) : α :=
  v.getD (t.getD i 0) default

/-- `INTP_SWAP(*pi, *pj)`. -/
def np_swap (t : Array ℕ) (i j : ℕ) : Array ℕ :=
  let a := t.getD i 0
  let b := t.getD j 0
  (t.set! i b).set! j a

/-- `do ++pi; while (v[*pi] < vp);` starting from position `i`. -/
def np_scan_up {α : Type*} [LinearOrder α] [Inhabited α] (v : Array α) (t : Array ℕ)
    (vp : α) : ℕ → ℕ → ℕ
  | i, 0 => i + 1
  | i, fuel + 1 =>
    if np_key v t (i + 1) < vp then np_scan_up v t vp (i + 1) fuel else i + 1

/-- `do --pj; while (vp < v[*pj]);` starting from position `j`. -/
def np_scan_down {α : Type*} [LinearOrder α] [Inhabited α] (v : Array α) (t : Array ℕ)
    (vp : α) : ℕ → ℕ → ℕ
  | j, 0 => j - 1
  | j, fuel + 1 =>
    if vp < np_key v t (j - 1) then np_scan_down v t vp (j - 1) fuel else j - 1

/-- The Hoare partition loop: scan inward from both ends, swapping, until the
cursors cross; returns the updated index array and the crossing position. -/
def np_part_loop {α : Type*} [LinearOrder α] [Inhabited α] (v : Array α) (vp : α) :
    Array ℕ → ℕ → ℕ → ℕ → Array ℕ × ℕ
  | t, pi, _, 0 => (t, pi)
  | t, pi, pj, fuel + 1 =>
    let pi' := np_scan_up v t vp pi t.size
    let pj' := np_scan_down v t vp pj t.size
    if pj' ≤ pi' then (t, pi')
    else np_part_loop v vp (np_swap t pi' pj') pi' pj' fuel

/-- One quicksort partition of the segment `[pl, pr]`: median-of-3 pivot
selection, pivot parked at `pr - 1`, Hoare partition, pivot restored at the
crossing position. -/
def np_partition {α : Type*} [LinearOrder α] [Inhabited α] (v : Array α)
    (t : Array ℕ) (pl pr : ℕ) : Array ℕ × ℕ :=
  let pm := pl + (pr - pl) / 2
  let t := if np_key v t pm < np_key v t pl then np_swap t pm pl else t
  let t := if np_key v t pr < np_key v t pm then np_swap t pr pm else t
  let t := if np_key v t pm < np_key v t pl then np_swap t pm pl else t
  let vp := np_key v t pm
  let t := np_swap t pm (pr - 1)
  let res := np_part_loop v vp t pl (pr - 1) (pr - pl + 2)
  (np_swap res.1 res.2 (pr - 1), res.2)

/-- The shifting loop of the insertion sort:
`while (pj > pl && LT(vp, v[*pk])) { *pj-- = *pk--; }`. -/
def np_ins_shift {α : Type*} [LinearOrder α] [Inhabited α] (v : Array α) (vp : α)
    (pl : ℕ) : Array ℕ → ℕ → ℕ → Array ℕ × ℕ
  | t, pj, 0 => (t, pj)
  | t, pj, fuel + 1 =>
    if pl < pj ∧ vp < np_key v t (pj - 1) then
      np_ins_shift v vp pl (t.set! pj (t.getD (pj - 1) 0)) (pj - 1) fuel
    else (t, pj)

/-- The insertion sort over the segment `[pl, pl + count]`, with `pi` the next
position to insert. -/
def np_ins_go {α : Type*} [LinearOrder α] [Inhabited α] (v : Array α) (pl : ℕ) :
    Array ℕ → ℕ → ℕ → Array ℕ
  | t, _, 0 => t
  | t, pi, count + 1 =>
    let vi := t.getD pi 0
    let vp := v.getD vi default
    let res := np_ins_shift v vp pl t pi pi
    np_ins_go v pl (res.1.set! res.2 vi) (pi + 1) count

/-- The recursive introsort skeleton on the segment `[pl, pr]` (fuelled in
place of the C code's explicit stack; the segments it processes are disjoint,
so the processing order does not affect the result). -/
def np_qsort_seg {α : Type*} [LinearOrder α] [Inhabited α] (v : Array α) :
    ℕ → Array ℕ → ℕ → ℕ → Array ℕ
  | 0, t, _, _ => t
  | fuel + 1, t, pl, pr =>
    if 15 < pr - pl then
      let res := np_partition v t pl pr
      np_qsort_seg v fuel (np_qsort_seg v fuel res.1 pl (res.2 - 1)) (res.2 + 1) pr
    else
      np_ins_go v pl t (pl + 1) (pr - pl)

/-- `np.argsort(v, kind='quicksort')`: the permutation of `0..len(v)-1` that
the indirect introsort produces; this is the row order `sort_values` uses. -/
def np_argsort_quicksort {α : Type*} [LinearOrder α] [Inhabited α] (v : List α) :
    List ℕ :=
  let va := v.toArray
  let n := v.length
  (np_qsort_seg va n (Array.range n) 0 (n - 1)).toList

/-! ### Concrete stores used to exercise the endpoint -/

def wEvent : EventRow := ⟨10, "500001", "Music", 2, 5, true, []⟩

def wUser : UserRow := ⟨1, ["music"], "500001"⟩

/-- A store whose pincode reference table is empty, so the caller's postal
code cannot be resolved. -/
def wDB : DB := ⟨[wEvent], []⟩

/-- Reference pincode at the origin (the caller's pincode). -/
noncomputable def exP0 : PincodeRow := ⟨"100", "D", "S", 0, 0⟩

/-- Reference pincode inside the latitude window (`0.6306 ≤ 70/111`) but at
haversine distance `6371·0.6306·π/180 ≈ 70.12 km > 70` from the origin. -/
noncomputable def exP1 : PincodeRow := ⟨"101", "D", "S", 0.6306, 0⟩

def exE1 : EventRow := ⟨1, "100", "music", 99, 10, true, []⟩

def exE2 : EventRow := ⟨2, "101", "music", 99, 10, true, []⟩

def exUser : UserRow := ⟨7, ["music"], "100"⟩

/-- Two candidate events inside the bounding box, of which only `exE1`
survives the exact 70 km distance filter. -/
noncomputable def exDB : DB := ⟨[exE1, exE2], [exP0, exP1]⟩

/-- The latitude (in degrees) whose haversine distance from the origin along
the meridian is exactly 70 km: `6371 · (x·π/180) = 70` at
`x = 12600/(6371·π) ≈ 0.6295°`. -/
noncomputable def exLatBoundary : ℝ := 12600 / (6371 * Real.pi)

/-- A pincode exactly 70 km from the origin. -/
noncomputable def exPB : PincodeRow := ⟨"102", "D", "S", exLatBoundary, 0⟩

def exE3 : EventRow := ⟨3, "102", "music", 99, 10, true, []⟩

/-! ### Supporting lemmas for the claims -/

lemma mem_sort_events_by_distance {events : List EventRow} {pincodes : List PincodeRow}
    {user_lat user_lon max_distance_km : ℝ} {r : RankedEvent}
    (hr : r ∈ sort_events_by_distance events pincodes user_lat user_lon max_distance_km) :
    r.distance_km ≤ max_distance_km := by
  unfold sort_events_by_distance at hr
  rw [List.mem_insertionSort, List.mem_filter] at hr
  exact of_decide_eq_true hr.2

lemma normalize_page_idem (p : ℤ) : normalize_page (normalize_page p) = normalize_page p := by
  unfold normalize_page
  rw [← max_assoc, max_self]

lemma normalize_size_idem (s : ℤ) : normalize_size (normalize_size s) = normalize_size s := by
  unfold normalize_size
  have h1 : min 200 (max 1 (min 200 s)) = max 1 (min 200 s) := by
    rw [min_eq_right]
    exact max_le (by norm_num) (min_le_left _ _)
  rw [h1, ← max_assoc, max_self]

lemma le_ceil_div_mul (n s : ℕ) (hs : 0 < s) : n ≤ ceil_div n s * s := by
  unfold ceil_div
  rw [Nat.mul_comm]
  have h := Nat.div_add_mod (n + s - 1) s
  have hr : (n + s - 1) % s < s := Nat.mod_lt _ hs
  generalize hm : s * ((n + s - 1) / s) = m at h ⊢
  omega

lemma join_page_slices_aux {α : Type*} (s : ℕ) :
    ∀ (k : ℕ) (seq : List α), seq.length ≤ k * s →
      ((List.range k).map fun i => (seq.drop (i * s)).take s).flatten = seq := by
  intro k
  induction k with
  | zero =>
    intro seq h
    have : seq = [] := List.length_eq_zero.mp (by omega)
    simp [this]
  | succ k ih =>
    intro seq h
    rw [Nat.succ_mul] at h
    rw [List.range_succ_eq_map, List.map_cons, List.flatten_cons, List.map_map]
    have h1 : ((fun i => (seq.drop (i * s)).take s) ∘ Nat.succ) =
        fun i => ((seq.drop s).drop (i * s)).take s := by
      funext i
      simp only [Function.comp_apply, List.drop_drop]
      rw [Nat.succ_mul, Nat.add_comm]
    rw [h1, ih (seq.drop s) (by rw [List.length_drop]; omega)]
    simp

/-- Each `page_slice` at page `i + 1` is the `i`-th block of `size` elements. -/
lemma page_slice_nat {α : Type*} (seq : List α) (i : ℕ) (size : ℤ) (hs : 0 ≤ size) :
    page_slice seq ((i : ℤ) + 1) size = (seq.drop (i * size.toNat)).take size.toNat := by
  unfold page_slice
  congr 1
  congr 1
  have : ((i : ℤ) + 1 - 1) * size = ((i * size.toNat : ℕ) : ℤ) := by
    push_cast [Int.toNat_of_nonneg hs]
    ring
  rw [this, Int.toNat_natCast]

/-! ### Claims -/

/-- C9: for all coordinates `a` and `b`, `haversine_distance` is symmetric in
its two points, and the distance from any coordinate to itself is `0`
(Earth radius 6371 km). -/
theorem haversine_symm_and_self_zero :
    (∀ lat1 lon1 lat2 lon2 : ℝ,
      haversine_distance lat1 lon1 lat2 lon2 = haversine_distance lat2 lon2 lat1 lon1) ∧
    (∀ lat lon : ℝ, haversine_distance lat lon lat lon = 0) :=
  ⟨haversine_comm, haversine_self⟩

/-- C5: the sequence returned by `sort_events_by_distance` is non-decreasing in
`distance_km` across consecutive elements. -/
theorem ranked_output_nondecreasing (events : List EventRow) (pincodes : List PincodeRow)
    (user_lat user_lon max_distance_km : ℝ) :
    (sort_events_by_distance events pincodes user_lat user_lon max_distance_km).Chain'
      fun a b => a.distance_km ≤ b.distance_km := by
  unfold sort_events_by_distance
  exact (List.sorted_insertionSort dist_le _).chain'

/-- C4: every candidate appearing in the ranked output of
`sort_events_by_distance` has `distance_km ≤ max_distance_km`, and conversely
every located candidate whose computed distance is at most
`max_distance_km` — in particular a candidate at exactly `max_distance_km` —
is retained in the output: the filter is inclusive (`<=`), not strict. -/
theorem ranked_output_within_radius (events : List EventRow) (pincodes : List PincodeRow)
    (user_lat user_lon max_distance_km : ℝ) :
    (∀ r ∈ sort_events_by_distance events pincodes user_lat user_lon max_distance_km,
        r.distance_km ≤ max_distance_km) ∧
    (∀ x ∈ events_with_location events pincodes,
        haversine_distance user_lat user_lon x.2.1 x.2.2 ≤ max_distance_km →
        (⟨x.1, haversine_distance user_lat user_lon x.2.1 x.2.2⟩ : RankedEvent) ∈
          sort_events_by_distance events pincodes user_lat user_lon max_distance_km) := by
  constructor
  · intro r hr
    exact mem_sort_events_by_distance hr
  · intro x hx hle
    unfold sort_events_by_distance
    rw [List.mem_insertionSort, List.mem_filter]
    exact ⟨List.mem_map_of_mem _ hx, decide_eq_true hle⟩

/-- C3 (code bug): the sort used by `sort_values('Distance_km')` — numpy's
indirect introsort, pandas' default `kind='quicksort'` — is not stable: on 17
candidates at equal distance it returns the rows in the order
`[0, 14, 13, 12, 11, 10, 9, 15, 8, 6, 5, 4, 3, 2, 1, 7, 16]` instead of the
original input order required by the spec. -/
theorem np_quicksort_reorders_equal_keys :
    np_argsort_quicksort (List.replicate 17 (0 : ℚ)) =
      [0, 14, 13, 12, 11, 10, 9, 15, 8, 6, 5, 4, 3, 2, 1, 7, 16] ∧
    np_argsort_quicksort (List.replicate 17 (0 : ℚ)) ≠ List.range 17 := by
  set_option maxRecDepth 4000 in
  constructor
  · decide
  · decide

/-- C8: the endpoint never rejects a page/size pair: it behaves identically on
`(page, size)` and on the normalized pair, the effective page is
`max(1, page)`, and the effective size is `size` clamped into `[1, 200]`. -/
theorem pagination_inputs_clamped (db : DB) (u : UserRow) (today : ℕ) (page size : ℤ) :
    get_recommended_events db u today page size =
      get_recommended_events db u today (normalize_page page) (normalize_size size) ∧
    normalize_page page = max 1 page ∧
    normalize_size size = max 1 (min 200 size) ∧
    1 ≤ normalize_page page ∧ 1 ≤ normalize_size size ∧ normalize_size size ≤ 200 := by
  refine ⟨?_, rfl, rfl, le_max_left _ _, le_max_left _ _, ?_⟩
  · simp only [get_recommended_events, normalize_page_idem, normalize_size_idem]
  · exact max_le (by norm_num) (min_le_left _ _)

/-- C6: for a fixed size in `[1, 200]`, concatenating the page slices for
pages `1 .. ceil(n/size)` reconstructs the sequence exactly. -/
theorem paginate_reconstructs {α : Type*} (seq : List α) (size : ℤ)
    (h1 : 1 ≤ size) (h2 : size ≤ 200) :
    ((List.range (ceil_div seq.length size.toNat)).map fun i : ℕ =>
      page_slice seq ((i : ℤ) + 1) size).flatten = seq := by
  have hs : 0 < size.toNat := by omega
  have hrw : (fun i : ℕ => page_slice seq ((i : ℤ) + 1) size) =
      fun i : ℕ => (seq.drop (i * size.toNat)).take size.toNat := by
    funext i
    exact page_slice_nat seq i size (by omega)
  rw [hrw]
  exact join_page_slices_aux size.toNat (ceil_div seq.length size.toNat) seq
    (le_ceil_div_mul seq.length size.toNat hs)

/-- Witness for C6 at `seq = [1, 2, 3]`, `size = 2`. -/
theorem paginate_reconstructs_witness :
    (1 : ℤ) ≤ 2 ∧ (2 : ℤ) ≤ 200 ∧
    ((List.range (ceil_div ([1, 2, 3] : List ℕ).length (2 : ℤ).toNat)).map fun i : ℕ =>
      page_slice [1, 2, 3] ((i : ℤ) + 1) 2).flatten = [1, 2, 3] :=
  ⟨by norm_num, by norm_num,
    paginate_reconstructs [1, 2, 3] 2 (by norm_num) (by norm_num)⟩

/-- C7: when the caller's own postal code has no entry in the pincode table
(and the interest check has not already short-circuited), the endpoint does
not fail: it returns the unranked interest-query events under plain
offset/limit pagination, with `ceil(total/size)` total pages (`0` when there
are none). -/
theorem fallback_on_missing_user_pincode (db : DB) (u : UserRow) (today : ℕ)
    (page size : ℤ) (hint : u.interests ≠ []) (hmiss : user_pincode_row db u = none) :
    get_recommended_events db u today page size =
      ⟨page_slice (events_query db u today) (normalize_page page) (normalize_size size),
        if 0 < (events_query db u today).length then
          ceil_div (events_query db u today).length (normalize_size size).toNat
        else 0⟩ := by
  unfold get_recommended_events
  rw [if_neg hint, hmiss]
  rfl

/-- Witness for C7: a caller with interests whose pincode has no reference
entry. -/
theorem fallback_on_missing_user_pincode_witness :
    wUser.interests ≠ [] ∧ user_pincode_row wDB wUser = none ∧
    get_recommended_events wDB wUser 0 1 20 =
      ⟨page_slice (events_query wDB wUser 0) (normalize_page 1) (normalize_size 20),
        if 0 < (events_query wDB wUser 0).length then
          ceil_div (events_query wDB wUser 0).length (normalize_size 20).toNat
        else 0⟩ :=
  ⟨by decide, rfl, fallback_on_missing_user_pincode wDB wUser 0 1 20 (by decide) rfl⟩

/-- Counterexample to C1: the point `(0, 0.6295)` is within 70 km haversine
distance of the center `(0, 0)` — it is at ≈ 69.998 km — yet lies outside the
bounding-box window, because one longitude degree at the equator spans
`2π·6371/360 ≈ 111.195 km` under the formula's Earth radius while the window
uses `111.320` km per degree, so the window's longitude half-width
`70/111.320 ≈ 0.62882°` is smaller than the circle's longitude reach. -/
theorem bounding_box_not_superset :
    haversine_distance 0 0 0 0.6295 ≤ 70 ∧ ¬ in_bounding_box 0 0 70 0 0.6295 := by
  have hlon : lon_delta 70 0 = 70 / 111.320 := by
    unfold lon_delta
    rw [radians_zero, Real.cos_zero, max_eq_right (by norm_num : (0.000001:ℝ) ≤ 1)]
    norm_num
  constructor
  · rw [haversine_equator 0.6295 (by norm_num) (by norm_num)]
    unfold radians
    nlinarith [Real.pi_lt_d6]
  · intro h
    have h2 := h.2.2
    rw [hlon] at h2
    norm_num at h2

/-- C1 amended: for centers and points with latitudes in `[-90, 90]` and
longitudes in `[-180, 180]` and any `radiusKm > 0`, the *latitude* bounds of
the prefilter window contain every point within haversine distance `radiusKm`
of the center; the longitude bounds do not have this property
(see `bounding_box_not_superset`). -/
theorem bounding_box_lat_superset (centerLat centerLon plat plon radiusKm : ℝ)
    (hclat : -90 ≤ centerLat ∧ centerLat ≤ 90) (hplat : -90 ≤ plat ∧ plat ≤ 90)
    (hclon : -180 ≤ centerLon ∧ centerLon ≤ 180) (hplon : -180 ≤ plon ∧ plon ≤ 180)
    (hr : 0 < radiusKm)
    (hdist : haversine_distance centerLat centerLon plat plon ≤ radiusKm) :
    centerLat - lat_delta radiusKm ≤ plat ∧ plat ≤ centerLat + lat_delta radiusKm := by
  have hge := haversine_ge_lat centerLat centerLon plat plon hclat.1 hclat.2 hplat.1 hplat.2
  have habs : 6371 * (|plat - centerLat| * (Real.pi / 180)) ≤ radiusKm := by
    have hradeq : |radians plat - radians centerLat| =
        |plat - centerLat| * (Real.pi / 180) := by
      unfold radians
      rw [show plat * (Real.pi / 180) - centerLat * (Real.pi / 180) =
          (plat - centerLat) * (Real.pi / 180) by ring,
        abs_mul, abs_of_nonneg (by positivity : (0:ℝ) ≤ Real.pi / 180)]
    rw [hradeq] at hge
    linarith
  have hc : (111:ℝ) ≤ 6371 * (Real.pi / 180) := by
    linarith [Real.pi_gt_d6]
  have h111 : 111 * |plat - centerLat| ≤ radiusKm := by
    have := mul_le_mul_of_nonneg_right hc (abs_nonneg (plat - centerLat))
    nlinarith [abs_nonneg (plat - centerLat)]
  have hfin : |plat - centerLat| ≤ lat_delta radiusKm := by
    unfold lat_delta
    rw [le_div_iff₀ (by norm_num : (0:ℝ) < 111.0)]
    linarith
  rw [abs_le] at hfin
  exact ⟨by linarith [hfin.1], by linarith [hfin.2]⟩

/-- Witness for the amended C1 at center `(0,0)`, point `(0.1, 0)`,
radius 70. -/
theorem bounding_box_lat_superset_witness :
    ((-90:ℝ) ≤ 0 ∧ (0:ℝ) ≤ 90) ∧ ((-90:ℝ) ≤ 0.1 ∧ (0.1:ℝ) ≤ 90) ∧
    ((-180:ℝ) ≤ 0 ∧ (0:ℝ) ≤ 180) ∧ (0:ℝ) < 70 ∧
    haversine_distance 0 0 0.1 0 ≤ 70 ∧
    ((0:ℝ) - lat_delta 70 ≤ 0.1 ∧ (0.1:ℝ) ≤ 0 + lat_delta 70) := by
  have hdist : haversine_distance 0 0 0.1 0 ≤ 70 := by
    rw [haversine_meridian 0.1 (by norm_num) (by norm_num)]
    unfold radians
    nlinarith [Real.pi_lt_d6]
  exact ⟨⟨by norm_num, by norm_num⟩, ⟨by norm_num, by norm_num⟩,
    ⟨by norm_num, by norm_num⟩, by norm_num, hdist,
    bounding_box_lat_superset 0 0 0.1 0 70 ⟨by norm_num, by norm_num⟩
      ⟨by norm_num, by norm_num⟩ ⟨by norm_num, by norm_num⟩
      ⟨by norm_num, by norm_num⟩ (by norm_num) hdist⟩

/-! ### Evaluating the endpoint on the concrete store -/

lemma lon_delta_origin : lon_delta 70 0 = 70 / 111.320 := by
  unfold lon_delta
  rw [radians_zero, Real.cos_zero, max_eq_right (by norm_num : (0.000001:ℝ) ≤ 1)]
  norm_num

lemma ex_box0 : in_bounding_box 0 0 70 0 0 := by
  unfold in_bounding_box
  rw [lon_delta_origin]
  unfold lat_delta
  norm_num

lemma ex_box1 : in_bounding_box 0 0 70 0.6306 0 := by
  unfold in_bounding_box
  rw [lon_delta_origin]
  unfold lat_delta
  norm_num

lemma ex_nearby : nearby_pincodes exDB 0 0 = ["100", "101"] := by
  unfold nearby_pincodes exDB exP0 exP1
  simp only [List.filter_cons, List.filter_nil, decide_eq_true ex_box0,
    decide_eq_true ex_box1, if_true]
  simp

lemma ex_events_query : events_query exDB exUser 0 = [exE1, exE2] := by decide

lemma ex_cands : candidate_events exDB exUser 0 0 0 = [exE1, exE2] := by
  unfold candidate_events
  rw [ex_nearby, ex_events_query]
  decide

lemma ex_le1 : haversine_distance 0 0 0 0 ≤ 70 := by
  rw [haversine_self]; norm_num

lemma ex_gt2 : ¬ haversine_distance 0 0 0.6306 0 ≤ 70 := by
  rw [haversine_meridian 0.6306 (by norm_num) (by norm_num)]
  unfold radians
  intro h
  nlinarith [Real.pi_gt_d6]

lemma ex_located : events_with_location [exE1, exE2] [exP0, exP1] =
    [(exE1, (0:ℝ), (0:ℝ)), (exE2, (0.6306:ℝ), (0:ℝ))] := rfl

lemma ex_sorted : sort_events_by_distance [exE1, exE2] [exP0, exP1] 0 0 70 =
    [⟨exE1, haversine_distance 0 0 0 0⟩] := by
  unfold sort_events_by_distance
  rw [ex_located]
  simp only [List.map_cons, List.map_nil, List.filter_cons, List.filter_nil,
    decide_eq_true ex_le1, decide_eq_false ex_gt2, if_true]
  simp

lemma ex_ranked : ranked_sequence exDB exUser 0 0 0 =
    [⟨exE1, haversine_distance 0 0 0 0⟩] := by
  unfold ranked_sequence
  rw [ex_cands]
  rw [show pincodes_for exDB (unique_strings ([exE1, exE2].map (·.pincode))) =
    [exP0, exP1] from rfl]
  exact ex_sorted

lemma ex_endpoint : get_recommended_events exDB exUser 0 1 1 = ⟨[exE1], 2⟩ := by
  have h1 : user_pincode_row exDB exUser = some exP0 := rfl
  simp only [get_recommended_events, h1]
  rw [if_neg (by decide : ¬ (exUser.interests = []))]
  rw [show nearby_pincodes exDB exP0.latitude exP0.longitude = ["100", "101"]
    from ex_nearby]
  rw [if_neg (by decide : ¬ ((["100", "101"] : List String) = []))]
  rw [show candidate_events exDB exUser 0 exP0.latitude exP0.longitude = [exE1, exE2]
    from ex_cands]
  rw [if_neg (by decide : ¬ (([exE1, exE2] : List EventRow) = []))]
  rw [show ranked_sequence exDB exUser 0 exP0.latitude exP0.longitude =
    [⟨exE1, haversine_distance 0 0 0 0⟩] from ex_ranked]
  rw [if_neg ?_]
  · rfl
  · intro h
    simp [page_slice, normalize_page, normalize_size] at h

/-- Counterexample to C2: on the concrete store, the distance-filtered ordered
sequence has length 1 and the clamped size is 1 — the claim demands
`totalPages = ceil(1/1) = 1` — but the endpoint reports 2, the page count of
the *unfiltered* candidate set. -/
theorem total_pages_ignores_distance_filter :
    (get_recommended_events exDB exUser 0 1 1).events = [exE1] ∧
    (ranked_sequence exDB exUser 0 0 0).length = 1 ∧
    (get_recommended_events exDB exUser 0 1 1).total_pages ≠
      ceil_div (ranked_sequence exDB exUser 0 0 0).length (normalize_size 1).toNat := by
  rw [ex_endpoint, ex_ranked]
  refine ⟨rfl, rfl, ?_⟩
  decide

/-- C2 amended (the nearby statement that holds): whenever the returned page
slice is nonempty, the reported `total_pages` is `ceil(c / size)` where `c`
is the number of *candidate* events (bounding-box prefiltered and capped at
5000) before the exact-distance filter; when there are no candidates, or the
slice is empty, the endpoint reports `0`. -/
theorem total_pages_eq_ceil_candidates (db : DB) (u : UserRow) (today : ℕ)
    (page size : ℤ) (up : PincodeRow)
    (hint : u.interests ≠ []) (hup : user_pincode_row db u = some up)
    (hnear : nearby_pincodes db up.latitude up.longitude ≠ [])
    (hcand : candidate_events db u today up.latitude up.longitude ≠ [])
    (hslice : page_slice (ranked_sequence db u today up.latitude up.longitude)
        (normalize_page page) (normalize_size size) ≠ []) :
    (get_recommended_events db u today page size).total_pages =
      ceil_div (candidate_events db u today up.latitude up.longitude).length
        (normalize_size size).toNat := by
  simp only [get_recommended_events, hup]
  rw [if_neg hint, if_neg hnear, if_neg hcand, if_neg ?_]
  · intro h
    exact hslice (List.map_eq_nil_iff.mp h)

/-- Witness for the amended C2 on the concrete store: the slice is nonempty
and the endpoint reports `ceil(2/1) = 2` pages for the 2 candidates. -/
theorem total_pages_eq_ceil_candidates_witness :
    exUser.interests ≠ [] ∧ user_pincode_row exDB exUser = some exP0 ∧
    nearby_pincodes exDB exP0.latitude exP0.longitude ≠ [] ∧
    candidate_events exDB exUser 0 exP0.latitude exP0.longitude ≠ [] ∧
    page_slice (ranked_sequence exDB exUser 0 exP0.latitude exP0.longitude)
      (normalize_page 1) (normalize_size 1) ≠ [] ∧
    (get_recommended_events exDB exUser 0 1 1).total_pages =
      ceil_div (candidate_events exDB exUser 0 exP0.latitude exP0.longitude).length
        (normalize_size 1).toNat := by
  have hnear : nearby_pincodes exDB exP0.latitude exP0.longitude ≠ [] := by
    rw [show nearby_pincodes exDB exP0.latitude exP0.longitude = ["100", "101"]
      from ex_nearby]
    decide
  have hcand : candidate_events exDB exUser 0 exP0.latitude exP0.longitude ≠ [] := by
    rw [show candidate_events exDB exUser 0 exP0.latitude exP0.longitude = [exE1, exE2]
      from ex_cands]
    decide
  have hslice : page_slice (ranked_sequence exDB exUser 0 exP0.latitude exP0.longitude)
      (normalize_page 1) (normalize_size 1) ≠ [] := by
    rw [show ranked_sequence exDB exUser 0 exP0.latitude exP0.longitude =
      [⟨exE1, haversine_distance 0 0 0 0⟩] from ex_ranked]
    intro h
    simp [page_slice, normalize_page, normalize_size] at h
  exact ⟨by decide, rfl, hnear, hcand, hslice,
    total_pages_eq_ceil_candidates exDB exUser 0 1 1 exP0 (by decide) rfl
      hnear hcand hslice⟩

/-- C10: when the page window lies entirely beyond the end of the ranked,
distance-filtered sequence (the slice is empty) on the main ranking path, the
endpoint returns an empty event list and `total_pages = 0`, not the page
count computed for the candidate set. -/
theorem empty_slice_returns_zero_pages (db : DB) (u : UserRow) (today : ℕ)
    (page size : ℤ) (up : PincodeRow)
    (hint : u.interests ≠ []) (hup : user_pincode_row db u = some up)
    (hnear : nearby_pincodes db up.latitude up.longitude ≠ [])
    (hcand : candidate_events db u today up.latitude up.longitude ≠ [])
    (hslice : page_slice (ranked_sequence db u today up.latitude up.longitude)
        (normalize_page page) (normalize_size size) = []) :
    get_recommended_events db u today page size = ⟨[], 0⟩ := by
  simp only [get_recommended_events, hup]
  rw [if_neg hint, if_neg hnear, if_neg hcand, if_pos (by rw [hslice]; rfl)]

/-- Witness for C10: requesting page 5 of size 1 when the ranked sequence has
a single element. -/
theorem empty_slice_returns_zero_pages_witness :
    exUser.interests ≠ [] ∧ user_pincode_row exDB exUser = some exP0 ∧
    nearby_pincodes exDB exP0.latitude exP0.longitude ≠ [] ∧
    candidate_events exDB exUser 0 exP0.latitude exP0.longitude ≠ [] ∧
    page_slice (ranked_sequence exDB exUser 0 exP0.latitude exP0.longitude)
      (normalize_page 5) (normalize_size 1) = [] ∧
    get_recommended_events exDB exUser 0 5 1 = ⟨[], 0⟩ := by
  have hnear : nearby_pincodes exDB exP0.latitude exP0.longitude ≠ [] := by
    rw [show nearby_pincodes exDB exP0.latitude exP0.longitude = ["100", "101"]
      from ex_nearby]
    decide
  have hcand : candidate_events exDB exUser 0 exP0.latitude exP0.longitude ≠ [] := by
    rw [show candidate_events exDB exUser 0 exP0.latitude exP0.longitude = [exE1, exE2]
      from ex_cands]
    decide
  have hslice : page_slice (ranked_sequence exDB exUser 0 exP0.latitude exP0.longitude)
      (normalize_page 5) (normalize_size 1) = [] := by
    rw [show ranked_sequence exDB exUser 0 exP0.latitude exP0.longitude =
      [⟨exE1, haversine_distance 0 0 0 0⟩] from ex_ranked]
    rfl
  exact ⟨by decide, rfl, hnear, hcand, hslice,
    empty_slice_returns_zero_pages exDB exUser 0 5 1 exP0 (by decide) rfl
      hnear hcand hslice⟩

lemma ex_boundary_dist : haversine_distance 0 0 exLatBoundary 0 = 70 := by
  have hpi := Real.pi_gt_three
  have h0 : 0 ≤ exLatBoundary := by
    unfold exLatBoundary
    positivity
  have h180 : exLatBoundary ≤ 180 := by
    unfold exLatBoundary
    rw [div_le_iff₀ (by positivity)]
    nlinarith
  rw [haversine_meridian exLatBoundary h0 h180]
  unfold exLatBoundary radians
  have hne : Real.pi ≠ 0 := Real.pi_ne_zero
  field_simp
  ring

/-- Witness for C4: a located candidate at exactly the 70 km boundary — at
latitude `12600/(6371·π)`, haversine distance exactly 70 — is retained in the
ranked output, and every ranked element respects the bound. -/
theorem ranked_output_within_radius_witness :
    (exE3, exLatBoundary, (0:ℝ)) ∈ events_with_location [exE3] [exPB] ∧
    haversine_distance 0 0 exLatBoundary 0 = 70 ∧
    haversine_distance 0 0 exLatBoundary 0 ≤ 70 ∧
    (⟨exE3, haversine_distance 0 0 exLatBoundary 0⟩ : RankedEvent) ∈
      sort_events_by_distance [exE3] [exPB] 0 0 70 ∧
    ∀ r ∈ sort_events_by_distance [exE3] [exPB] 0 0 70, r.distance_km ≤ 70 := by
  have hm : (exE3, exLatBoundary, (0:ℝ)) ∈ events_with_location [exE3] [exPB] := by
    rw [show events_with_location [exE3] [exPB] = [(exE3, exLatBoundary, (0:ℝ))] from rfl]
    exact List.mem_singleton_self _
  refine ⟨hm, ex_boundary_dist, le_of_eq ex_boundary_dist, ?_, ?_⟩
  · exact (ranked_output_within_radius [exE3] [exPB] 0 0 70).2
      (exE3, exLatBoundary, (0:ℝ)) hm (le_of_eq ex_boundary_dist)
  · exact (ranked_output_within_radius [exE3] [exPB] 0 0 70).1

end Cyo
